import Mathlib

/-!
Verification of the tar-archive image import pipeline
(`src/image/tarexport/load.go` of Hicest/hyperd).

The Go source is shallowly embedded as executable Lean functions.  File
system access, JSON parsing, layer decompression, reference parsing and the
behaviour of the external stores (layer store, image store, reference
store) are collaborators outside the excerpted file; they are supplied as
an `Env` of oracle functions, while every control-flow decision and every
state mutation of `load.go` itself is translated line by line.  The
mutable world (layer store contents, image store contents, reference
bindings, plus an event trace recording acquisitions, releases, creations,
parent links and emitted status lines) is threaded explicitly as a value
of type `St`.
-/

namespace Tarexport

/-! ## Paths

Paths are absolute, represented as their cleaned component lists.  The Go
code manipulates paths as strings through `filepath.Join` (which cleans
`.` and `..` lexically); pieces are split on the slash and cleaned after
concatenation, which is lexically equivalent. -/

abbrev Path := List String

def splitChars (sep : Char) : List Char → List (List Char)
  | [] => [[]]
  | c :: rest =>
    let r := splitChars sep rest
    if c = sep then [] :: r
    else match r with
      | [] => [[c]]
      | g :: gs => (c :: g) :: gs

def splitOnChar (sep : Char) (s : String) : List String :=
  (splitChars sep s.data).map fun cs => String.mk cs

/-- Components of one path piece: split on the slash, dropping empties. -/
def splitPiece (s : String) : List String :=
  (splitOnChar '/' s).filter fun c => c ≠ ""

/-- Lexical cleaning of an absolute component list: `.` is dropped and
`..` pops one component (at the root it is dropped, as `filepath.Clean`
does for absolute paths). -/
def cleanComps (acc : List String) : List String → List String
  | [] => acc.reverse
  | "." :: rest => cleanComps acc rest
  | ".." :: rest => cleanComps acc.tail rest
  | c :: rest => cleanComps (c :: acc) rest

/-- Model of `filepath.Join(base, pieces...)` for an absolute `base`. -/
def joinPath (base : Path) (pieces : List String) : Path :=
  cleanComps [] (base ++ pieces.flatMap splitPiece)

/-! ## Digests

`digest.Digest` values are strings `algorithm:hex`; the split on the first
colon mirrors the go-digest accessors used by `ociLoad`. -/

def joinColon : List String → String
  | [] => ""
  | [s] => s
  | s :: rest => s ++ ":" ++ joinColon rest

def digestAlgorithm (d : String) : String :=
  match splitOnChar ':' d with
  | [] => ""
  | a :: _ => a

def digestHex (d : String) : String :=
  match splitOnChar ':' d with
  | [] => ""
  | _ :: rest => joinColon rest

/-! ## Data model -/

/-- Chain identities: `ChainID.empty` is the identity of the empty layer
stack and `ChainID.step parent diff` the identity obtained by applying the
layer with the given DiffID on top of `parent`.  The constructor-based
representation models the content digest as a collision-free function of
the DiffID prefix, exactly the purity invariant the spec states for
`RootFS.ChainID()`. -/
inductive ChainID
  | empty
  | step (parent : ChainID) (diff : String)
deriving DecidableEq

/-- `image.RootFS.ChainID()`: the chain identity of a DiffID sequence. -/
def chainIDOf (diffIDs : List String) : ChainID :=
  diffIDs.foldl ChainID.step ChainID.empty

/-- A layer handle as returned by the layer store: it knows its own
ChainID and DiffID. -/
structure Handle where
  chain : ChainID
  diff : String
deriving DecidableEq

/-- Error outcomes of the pipeline.  Distinct constructors separate the
distinct error sources of `load.go`; `errInvalid` is the error produced by
calling `Close` on a nil `*os.File`, and `outOfFuel` is the model artifact
marking exhaustion of the recursion fuel (it corresponds to divergence of
the Go recursion, which has no fuel). -/
inductive Err
  | pathEscape
  | ioError
  | errInvalid
  | notFound
  | outOfFuel
  | invalidConfigParse
  | layersLengthMismatch (expected actual : Nat)
  | invalidDiffID (i : Nat)
  | invalidTag (t : String)
  | invalidTargetID (oldID : String)
  | cannotLoadWithNameAndRefs
  | noNameMapping
  | refNameMissing
  | noNamingFor (refName : String)
deriving DecidableEq

/-- Observable events of one import run, in reverse chronological order. -/
inductive Ev
  | gotLayer (c : ChainID)
  | registered (c : ChainID)
  | released (c : ChainID)
  | created (id : String)
  | parentSet (child parent : String)
  | tagBound (ref : String) (id : String)
  | renameNotice (ref : String) (prev : String)
  | statusLoaded (ref : String) (id : String)
deriving DecidableEq

/-- The mutable world: layer store (ChainID to DiffID of the top layer),
image store (image ID to serialized configuration; IDs are modelled as the
configuration bytes themselves, a collision-free content digest), the
reference store bindings, and the event trace. -/
structure St where
  layers : List (ChainID × String)
  images : List (String × String)
  tags : List (String × String)
  events : List Ev
deriving DecidableEq

def St.empty : St := ⟨[], [], [], []⟩

/-- Association lookup with decidable key equality. -/
def assoc {α β : Type} [DecidableEq α] : List (α × β) → α → Option β
  | [], _ => none
  | (k, v) :: rest, a => if k = a then some v else assoc rest a

/-! ## Event counters -/

def countReg (c : ChainID) : List Ev → Nat
  | [] => 0
  | .registered c1 :: evs => (if c1 = c then 1 else 0) + countReg c evs
  | _ :: evs => countReg c evs

def countRel (c : ChainID) : List Ev → Nat
  | [] => 0
  | .released c1 :: evs => (if c1 = c then 1 else 0) + countRel c evs
  | _ :: evs => countRel c evs

def countGot (c : ChainID) : List Ev → Nat
  | [] => 0
  | .gotLayer c1 :: evs => (if c1 = c then 1 else 0) + countGot c evs
  | _ :: evs => countGot c evs

def countCreatedAll : List Ev → Nat
  | [] => 0
  | .created _ :: evs => countCreatedAll evs + 1
  | _ :: evs => countCreatedAll evs

def countCreatedFor (id : String) : List Ev → Nat
  | [] => 0
  | .created id1 :: evs => (if id1 = id then 1 else 0) + countCreatedFor id evs
  | _ :: evs => countCreatedFor id evs

/-! ## Inputs -/

/-- Result of `os.Open` / `ioutil.ReadFile` on a path: the code
distinguishes success, absence (`os.IsNotExist`), and any other failure
(permissions, transport, ...). -/
inductive OpenRes
  | content (s : String)
  | notExist
  | openErr
deriving DecidableEq

structure ManifestItem where
  config : String
  repoTags : List String
  layers : List String
deriving DecidableEq

/-- The parsed view of configuration bytes (`image.NewFromJSON` and the
image returned by the image store): RootFS DiffIDs and build history
(history entries are opaque). -/
structure Img where
  diffIDs : List String
  history : List String
deriving DecidableEq

structure OCIDescriptor where
  mediaType : String
  digest : String
  annots : List (String × String)
deriving DecidableEq

structure OCIIndex where
  manifests : List OCIDescriptor
deriving DecidableEq

structure OCIManifest where
  configDigest : String
  layerDigests : List String
deriving DecidableEq

/-- Result of `reference.ParseNamed` followed by the `NamedTagged`
assertion in `loadHelper`. -/
inductive ParseRefRes
  | refErr
  | notTagged
  | okRef (ref : String)
deriving DecidableEq

/-- External collaborators of `load.go`, all outside the excerpted file:
the extracted file tree, the JSON decoders, the v1 migration helpers, the
decompressor (`decompressDiff raw` returns the DiffID the layer store
computes for the decompressed stream of blob bytes `raw`), the reference
parsing library, and the failure behaviour of the image store `Create`
and reference store `AddTag` operations. -/
structure Env where
  fs : Path → OpenRes
  readDir : Path → Except Unit (List (String × Bool))
  parseManifestList : String → Except Unit (List ManifestItem)
  parseImage : String → Except Unit Img
  parseIndex : String → Except Unit OCIIndex
  parseOCIManifest : String → Except Unit OCIManifest
  parseRepositories : String → Except Unit (List (String × List (String × String)))
  parseLegacyParent : String → Except Unit String
  historyFromConfig : String → Except Unit String
  makeV1Config : String → List String → List String → Except Unit String
  decompressDiff : String → Except Unit String
  parseNamedTagged : String → ParseRefRes
  parseNamed : String → Except Unit String
  withTag : String → String → Except Unit String
  withName : String → Except Unit String
  getRefsParsed : List (String × String) → Except Unit (List (String × String))
  createFails : String → Bool
  addTagFails : String → String → Bool

/-! ## Path safety guard -/

/-- Modelled from the spec: `symlink.FollowSymlinkInScope(path, root)` is
defined outside the excerpted sources.  Per spec section 4.1 the guard
resolves the path and rejects any result that lies outside `root`
(PathEscape).  The model file tree contains no symbolic links, so
resolution is the lexical cleaning performed by `filepath`. -/
def followSymlinkInScope (resolved : Path) (root : Path) : Except Err Path :=
  if root.isPrefixOf resolved then .ok resolved else .error .pathEscape

/-- `safePath(base, path)` from `load.go` line 407. -/
def safePath (base : Path) (path : String) : Except Err Path :=
  followSymlinkInScope (joinPath base [path]) base

/-! ## File name constants

Modelled from the spec: `manifestFileName`, `legacyConfigFileName`,
`legacyLayerFileName` and `legacyRepositoriesFileName` are declared in a
sibling file of the package that is not part of the excerpt; the spec
describes them as the structured manifest index file, the legacy
per-image configuration JSON, the legacy packed layer file, and the
legacy repositories map file.  Their concrete spellings are irrelevant to
every claim; the standard values are used. -/
def manifestFileName : String := "manifest.json"
def legacyConfigFileName : String := "json"
def legacyLayerFileName : String := "layer.tar"
def legacyRepositoriesFileName : String := "repositories"

def mediaTypeImageManifest : String := "application/vnd.oci.image.manifest.v1+json"
def annotRefNameKey : String := "org.opencontainers.ref.name"

/-! ## Store operations (collaborator interfaces of spec section 6) -/

/-- Layer store `Get`: lookup by ChainID; a hit acquires the handle. -/
def lsGet (c : ChainID) (st : St) : Except Err Handle × St :=
  match assoc st.layers c with
  | some d => (.ok ⟨c, d⟩, { st with events := .gotLayer c :: st.events })
  | none => (.error .notFound, st)

/-- Layer store `Register`: registers decompressed content with DiffID
`diff` against the parent chain, acquiring the new handle.  The store is
keyed by ChainID; re-registering an existing ChainID returns the existing
layer. -/
def registerLayer (parent : ChainID) (diff : String) (st : St) : Except Err Handle × St :=
  let c : ChainID := .step parent diff
  (.ok ⟨c, diff⟩,
    { st with
      layers := if (assoc st.layers c).isSome then st.layers else (c, diff) :: st.layers
      events := .registered c :: st.events })

/-- Layer store `Release` (also `layer.ReleaseAndLog`). -/
def lsRelease (h : Handle) (st : St) : St :=
  { st with events := .released h.chain :: st.events }

/-- Image store `Create`: content-addressed idempotent creation; the image
ID is the configuration digest (modelled by the bytes themselves). -/
def isCreate (env : Env) (config : String) (st : St) : Except Err String × St :=
  if env.createFails config then (.error .ioError, st)
  else
    (.ok config,
      { st with
        images := if (assoc st.images config).isSome then st.images else (config, config) :: st.images
        events := .created config :: st.events })

/-- Image store `Get`: returns the stored image record. -/
def isGet (env : Env) (id : String) (st : St) : Except Err Img × St :=
  match assoc st.images id with
  | none => (.error .ioError, st)
  | some bytes =>
    match env.parseImage bytes with
    | .error _ => (.error .ioError, st)
    | .ok img => (.ok img, st)

/-- Image store `SetParent`. -/
def isSetParent (child parent : String) (st : St) : St :=
  { st with events := .parentSet child parent :: st.events }

/-- Reference store `AddTag` with force: last-write-wins binding. -/
def rsAddTag (env : Env) (ref id : String) (st : St) : Except Err Unit × St :=
  if env.addTagFails ref id then (.error .ioError, st)
  else
    (.ok (),
      { st with
        tags := (ref, id) :: st.tags.filter fun p => p.1 ≠ ref
        events := .tagBound ref id :: st.events })

/-- `setLoadedTag` (`load.go` lines 172-181): emit a rename notice when the
reference already resolves to a different image, then bind. -/
def setLoadedTag (env : Env) (ref imgID : String) (st : St) : Except Err Unit × St :=
  let st1 :=
    match assoc st.tags ref with
    | some prev =>
      if prev ≠ imgID then { st with events := .renameNotice ref prev :: st.events } else st
    | none => st
  rsAddTag env ref imgID st1

/-! ## Layer loading (`loadLayer`, `load.go` lines 145-170) -/

/-- `loadLayer`: open the blob file, decompress it, and register the
stream against the ChainID of `rootFS` (the parent chain).  Progress
reporting is purely observational and is not modelled. -/
def loadLayer (env : Env) (filename : Path) (rootFS : List String) (st : St) :
    Except Err Handle × St :=
  match env.fs filename with
  | .notExist => (.error .ioError, st)
  | .openErr => (.error .ioError, st)
  | .content raw =>
    match env.decompressDiff raw with
    | .error _ => (.error .ioError, st)
    | .ok diff => registerLayer (chainIDOf rootFS) diff st

/-! ## Structured-manifest loading (`loadHelper`, `load.go` lines 78-143) -/

/-- Lines 107-113: consult the store by the ChainID of the extended
RootFS; on a miss, decompress and register the blob. -/
def getOrLoad (env : Env) (layerPath : Path) (rootFS : List String) (diffID : String)
    (st : St) : Except Err Handle × St :=
  match lsGet (chainIDOf (rootFS ++ [diffID])) st with
  | (.ok h, st1) => (.ok h, st1)
  | (.error _, st1) => loadLayer env layerPath rootFS st1

/-- The layer loop of `loadHelper` (lines 100-119).  `defers` accumulates
the handles whose release is deferred to the end of `loadHelper`; `i` is
the loop index used in the mismatch error. -/
def resolveLayers (env : Env) (tmpDir : Path) (pairs : List (String × String))
    (rootFS : List String) (i : Nat) (st : St) (defers : List Handle) :
    Except Err Unit × St × List Handle :=
  match pairs with
  | [] => (.ok (), st, defers)
  | (diffID, layerRel) :: rest =>
    match safePath tmpDir layerRel with
    | .error e => (.error e, st, defers)
    | .ok layerPath =>
      match getOrLoad env layerPath rootFS diffID st with
      | (.error e, st1) => (.error e, st1, defers)
      | (.ok h, st1) =>
        let defers1 := h :: defers
        if h.diff ≠ diffID then (.error (.invalidDiffID i), st1, defers1)
        else resolveLayers env tmpDir rest (rootFS ++ [diffID]) (i + 1) st1 defers1

/-- The tag loop of `loadHelper` (lines 126-139).  As in the source, the
result of `setLoadedTag` is evaluated and then discarded. -/
def processTags (env : Env) (repoTags : List String) (imgID : String) (st : St) :
    Except Err Unit × St :=
  match repoTags with
  | [] => (.ok (), st)
  | t :: rest =>
    match env.parseNamedTagged t with
    | .refErr => (.error .ioError, st)
    | .notTagged => (.error (.invalidTag t), st)
    | .okRef ref =>
      let st1 := (setLoadedTag env ref imgID st).2
      let st2 := { st1 with events := .statusLoaded ref imgID :: st1.events }
      processTags env rest imgID st2

/-- One iteration of the manifest loop of `loadHelper` (lines 79-140). -/
def loadItem (env : Env) (tmpDir : Path) (m : ManifestItem) (st : St)
    (defers : List Handle) : Except Err Unit × St × List Handle :=
  match safePath tmpDir m.config with
  | .error e => (.error e, st, defers)
  | .ok configPath =>
    match env.fs configPath with
    | .notExist => (.error .ioError, st, defers)
    | .openErr => (.error .ioError, st, defers)
    | .content config =>
      match env.parseImage config with
      | .error _ => (.error .invalidConfigParse, st, defers)
      | .ok img =>
        if m.layers.length ≠ img.diffIDs.length then
          (.error (.layersLengthMismatch m.layers.length img.diffIDs.length), st, defers)
        else
          match resolveLayers env tmpDir (img.diffIDs.zip m.layers) [] 0 st defers with
          | (.error e, st1, defers1) => (.error e, st1, defers1)
          | (.ok _, st1, defers1) =>
            match isCreate env config st1 with
            | (.error e, st2) => (.error e, st2, defers1)
            | (.ok imgID, st2) =>
              match processTags env m.repoTags imgID st2 with
              | (.error e, st3) => (.error e, st3, defers1)
              | (.ok _, st3) => (.ok (), st3, defers1)

def loadItems (env : Env) (tmpDir : Path) (ms : List ManifestItem) (st : St)
    (defers : List Handle) : Except Err Unit × St × List Handle :=
  match ms with
  | [] => (.ok (), st, defers)
  | m :: rest =>
    match loadItem env tmpDir m st defers with
    | (.error e, st1, defers1) => (.error e, st1, defers1)
    | (.ok _, st1, defers1) => loadItems env tmpDir rest st1 defers1

/-- Run of the deferred `layer.ReleaseAndLog` calls at `loadHelper` exit,
newest first (Go defer order). -/
def releaseAll (defers : List Handle) (st : St) : St :=
  match defers with
  | [] => st
  | h :: rest => releaseAll rest (lsRelease h st)

/-- `loadHelper` (lines 78-143): process the manifest items; every handle
acquired in the layer loop is released when the function exits, on both
the success path and every error path. -/
def loadHelper (env : Env) (tmpDir : Path) (ms : List ManifestItem) (st : St) :
    Except Err Unit × St :=
  match loadItems env tmpDir ms st [] with
  | (r, st1, defers) => (r, releaseAll defers st1)

/-! ## OCI adapter (`ociLoad`, `load.go` lines 183-259) -/

/-- Modelled from the spec: the helper `getRefs` is defined outside the
excerpted file; per spec section 4.6 it parses the caller-supplied
reference map into named references keyed by the ref-name annotation. -/
def getRefs (env : Env) (refs : List (String × String)) :
    Except Unit (List (String × String)) :=
  env.getRefsParsed refs

/-- The descriptor loop of `ociLoad` (lines 202-256).  Note that the
manifest blob path is built with `filepath.Join` directly from the
untrusted digest and opened without `safePath` (line 207-208). -/
def ociBuildItems (env : Env) (tmpDir : Path) (name : String)
    (refs : List (String × String)) (mds : List OCIDescriptor)
    (acc : List ManifestItem) (st : St) : Except Err (List ManifestItem) × St :=
  match mds with
  | [] => (.ok acc, st)
  | md :: rest =>
    if md.mediaType ≠ mediaTypeImageManifest then
      ociBuildItems env tmpDir name refs rest acc st
    else
      match env.fs (joinPath tmpDir ["blobs", digestAlgorithm md.digest, digestHex md.digest]) with
      | .notExist => (.error .ioError, st)
      | .openErr => (.error .ioError, st)
      | .content raw =>
        match env.parseOCIManifest raw with
        | .error _ => (.error .ioError, st)
        | .ok man =>
          let layers := man.layerDigests.map fun d =>
            "blobs/" ++ digestAlgorithm d ++ "/" ++ digestHex d
          match assoc md.annots annotRefNameKey with
          | none => (.error .refNameMissing, st)
          | some refName =>
            let tagRes : Except Err String :=
              if name ≠ "" then
                match env.parseNamed name with
                | .error _ => .error .ioError
                | .ok named =>
                  match env.withTag named refName with
                  | .error _ => .error .ioError
                  | .ok withTag => .ok withTag
              else
                match getRefs env refs with
                | .error _ => .error .ioError
                | .ok rs =>
                  match assoc rs refName with
                  | none => .error (.noNamingFor refName)
                  | some r => .ok r
            match tagRes with
            | .error e => (.error e, st)
            | .ok tag =>
              let item : ManifestItem :=
                { config := "blobs/" ++ digestAlgorithm man.configDigest ++ "/" ++ digestHex man.configDigest
                  repoTags := [tag]
                  layers := layers }
              ociBuildItems env tmpDir name refs rest (acc ++ [item]) st

/-- `ociLoad` (lines 183-259).  The index file is opened by joining
`index.json` onto the temp dir directly, without `safePath` (line 193). -/
def ociLoad (env : Env) (tmpDir : Path) (name : String)
    (refs : List (String × String)) (st : St) : Except Err Unit × St :=
  if name ≠ "" ∧ refs ≠ [] then (.error .cannotLoadWithNameAndRefs, st)
  else if name = "" ∧ refs = [] then (.error .noNameMapping, st)
  else
    match env.fs (joinPath tmpDir ["index.json"]) with
    | .notExist => (.error .ioError, st)
    | .openErr => (.error .ioError, st)
    | .content raw =>
      match env.parseIndex raw with
      | .error _ => (.error .ioError, st)
      | .ok index =>
        match ociBuildItems env tmpDir name refs index.manifests [] st with
        | (.error e, st1) => (.error e, st1)
        | (.ok manifests, st1) => loadHelper env tmpDir manifests st1

/-! ## Legacy adapter (`legacyLoad` / `legacyLoadImage`, lines 261-405)

The parent recursion of `legacyLoadImage` is embedded with an explicit
fuel counter; the Go code has none and diverges on a cyclic parent chain.
`LMode.img` is a call of `legacyLoadImage` for one old ID; `LMode.ploop`
is the retry loop of lines 340-350 that resolves a declared parent
through the load map. -/

abbrev LoadedMap := List (String × String)

inductive LMode
  | img (oldID : String)
  | ploop (parent : String)

/-- Lines 352-404 of `legacyLoadImage`: everything after parent
resolution.  The inherited RootFS and history are read from the parent
image when there is one; the single legacy layer is loaded (registered
unconditionally, with no prior store lookup), the config is migrated and
created, the layer handle released, the parent link set, and the old ID
recorded in the load map.  Note that the error exits between the layer
registration and the release (history migration, config migration, image
creation) return without releasing the handle. -/
def legacyFinish (env : Env) (dir : Path) (oldID imageJSON : String)
    (parentOpt : Option String) (m : LoadedMap) (st : St) :
    Except Err (Option String) × St × LoadedMap :=
  let rh : Except Err (Img) × St :=
    match parentOpt with
    | none => (.ok ⟨[], []⟩, st)
    | some pid => isGet env pid st
  match rh with
  | (.error e, st1) => (.error e, st1, m)
  | (.ok parentImg, st1) =>
    match safePath dir (oldID ++ "/" ++ legacyLayerFileName) with
    | .error e => (.error e, st1, m)
    | .ok layerPath =>
      match loadLayer env layerPath parentImg.diffIDs st1 with
      | (.error e, st2) => (.error e, st2, m)
      | (.ok newLayer, st2) =>
        let rootFS := parentImg.diffIDs ++ [newLayer.diff]
        match env.historyFromConfig imageJSON with
        | .error _ => (.error .ioError, st2, m)
        | .ok h =>
          let history := parentImg.history ++ [h]
          match env.makeV1Config imageJSON rootFS history with
          | .error _ => (.error .ioError, st2, m)
          | .ok config =>
            match isCreate env config st2 with
            | (.error e, st3) => (.error e, st3, m)
            | (.ok imgID, st3) =>
              let st4 := lsRelease newLayer st3
              let st5 :=
                match parentOpt with
                | some pid => isSetParent imgID pid st4
                | none => st4
              (.ok none, st5, (oldID, imgID) :: m)

/-- `legacyLoadImage` (mode `img`, lines 319-405) and its parent retry
loop (mode `ploop`, lines 340-350), mutually recursive on the fuel.  The
load-map memoization check (line 320) and the map hit of the retry loop
(line 342) consume no fuel. -/
def legacyGo (env : Env) (dir : Path) (fuel : Nat) (mode : LMode)
    (m : LoadedMap) (st : St) : Except Err (Option String) × St × LoadedMap :=
  match mode with
  | .img oldID =>
    if (assoc m oldID).isSome then (.ok none, st, m)
    else
      match fuel with
      | 0 => (.error .outOfFuel, st, m)
      | fuel1 + 1 =>
        match safePath dir (oldID ++ "/" ++ legacyConfigFileName) with
        | .error e => (.error e, st, m)
        | .ok configPath =>
          match env.fs configPath with
          | .notExist => (.error .ioError, st, m)
          | .openErr => (.error .ioError, st, m)
          | .content imageJSON =>
            match env.parseLegacyParent imageJSON with
            | .error _ => (.error .ioError, st, m)
            | .ok parent =>
              if parent = "" then legacyFinish env dir oldID imageJSON none m st
              else
                match legacyGo env dir fuel1 (.ploop parent) m st with
                | (.error e, st1, m1) => (.error e, st1, m1)
                | (.ok pidOpt, st1, m1) =>
                  legacyFinish env dir oldID imageJSON pidOpt m1 st1
  | .ploop parent =>
    if (assoc m parent).isSome then (.ok (assoc m parent), st, m)
    else
      match fuel with
      | 0 => (.error .outOfFuel, st, m)
      | fuel1 + 1 =>
        match legacyGo env dir fuel1 (.img parent) m st with
        | (.error e, st1, m1) => (.error e, st1, m1)
        | (.ok _, st1, m1) => legacyGo env dir fuel1 (.ploop parent) m1 st1

/-- `legacyLoadImage` (lines 319-405). -/
def legacyLoadImage (env : Env) (fuel : Nat) (oldID : String) (dir : Path)
    (m : LoadedMap) (st : St) : Except Err Unit × St × LoadedMap :=
  match legacyGo env dir fuel (.img oldID) m st with
  | (.ok _, st1, m1) => (.ok (), st1, m1)
  | (.error e, st1, m1) => (.error e, st1, m1)

/-- The subdirectory loop of `legacyLoad` (lines 270-276): every directory
entry is one candidate old-format image. -/
def legacyLoadDirs (env : Env) (fuel : Nat) (tmpDir : Path)
    (entries : List (String × Bool)) (m : LoadedMap) (st : St) :
    Except Err Unit × St × LoadedMap :=
  match entries with
  | [] => (.ok (), st, m)
  | (nm, isDir) :: rest =>
    if isDir then
      match legacyLoadImage env fuel nm tmpDir m st with
      | (.error e, st1, m1) => (.error e, st1, m1)
      | (.ok _, st1, m1) => legacyLoadDirs env fuel tmpDir rest m1 st1
    else legacyLoadDirs env fuel tmpDir rest m st

/-- The tag loop over one repository of the repositories file (lines
297-314); the result of `setLoadedTag` is discarded, as in the source. -/
def bindRepoTags (env : Env) (m : LoadedMap) (name : String)
    (tags : List (String × String)) (st : St) : Except Err Unit × St :=
  match tags with
  | [] => (.ok (), st)
  | (tag, oldID) :: rest =>
    match assoc m oldID with
    | none => (.error (.invalidTargetID oldID), st)
    | some imgID =>
      match env.withName name with
      | .error _ => (.error .ioError, st)
      | .ok named =>
        match env.withTag named tag with
        | .error _ => (.error .ioError, st)
        | .ok ref =>
          let st1 := (setLoadedTag env ref imgID st).2
          let st2 := { st1 with events := .statusLoaded ref imgID :: st1.events }
          bindRepoTags env m name rest st2

def bindRepositories (env : Env) (m : LoadedMap)
    (repos : List (String × List (String × String))) (st : St) :
    Except Err Unit × St :=
  match repos with
  | [] => (.ok (), st)
  | (name, tags) :: rest =>
    match bindRepoTags env m name tags st with
    | (.error e, st1) => (.error e, st1)
    | (.ok _, st1) => bindRepositories env m rest st1

/-- `legacyLoad` (lines 261-317).  When the repositories file is absent
the function returns the result of calling `Close` on the nil file
handle, which is the invalid-argument error, not success. -/
def legacyLoad (env : Env) (fuel : Nat) (tmpDir : Path) (st : St) :
    Except Err Unit × St :=
  match env.readDir tmpDir with
  | .error _ => (.error .ioError, st)
  | .ok entries =>
    match legacyLoadDirs env fuel tmpDir entries [] st with
    | (.error e, st1, _) => (.error e, st1)
    | (.ok _, st1, m) =>
      match safePath tmpDir legacyRepositoriesFileName with
      | .error e => (.error e, st1)
      | .ok repositoriesPath =>
        match env.fs repositoriesPath with
        | .openErr => (.error .ioError, st1)
        | .notExist => (.error .errInvalid, st1)
        | .content raw =>
          match env.parseRepositories raw with
          | .error _ => (.error .ioError, st1)
          | .ok repos => bindRepositories env m repos st1

/-! ## Entry point (`Load`, lines 26-76)

The temp workspace creation and the archive extraction that precede
format detection are external collaborators (spec section 1 scopes them
out); the embedding starts at the `oci-layout` probe of line 46.  `fuel`
bounds the legacy parent recursion only. -/

def Load (env : Env) (fuel : Nat) (tmpDir : Path) (name : String)
    (refs : List (String × String)) (st : St) : Except Err Unit × St :=
  match safePath tmpDir "oci-layout" with
  | .error e => (.error e, st)
  | .ok ociLayoutPath =>
    match env.fs ociLayoutPath with
    | .content _ => ociLoad env tmpDir name refs st
    | _ =>
      match safePath tmpDir manifestFileName with
      | .error e => (.error e, st)
      | .ok manifestPath =>
        match env.fs manifestPath with
        | .notExist => legacyLoad env fuel tmpDir st
        | .openErr => (.error .errInvalid, st)
        | .content raw =>
          match env.parseManifestList raw with
          | .error _ => (.error .ioError, st)
          | .ok manifest => loadHelper env tmpDir manifest st

/-! ## Invariants and predicates used by the claims -/

/-- Registration discipline: every ChainID has been registered at most
once, and a registered ChainID is present in the layer store. -/
def RegOnce (st : St) : Prop :=
  ∀ c : ChainID, countReg c st.events ≤ 1 ∧
    (countReg c st.events = 1 → (assoc st.layers c).isSome = true)

/-- `id` declares `p` as its legacy parent: the per-image config JSON of
`id` resolves, reads, and parses to a non-empty `Parent` field `p`. -/
def declaresParent (env : Env) (dir : Path) (id p : String) : Prop :=
  p ≠ "" ∧ ∃ cp raw, safePath dir (id ++ "/" ++ legacyConfigFileName) = .ok cp ∧
    env.fs cp = .content raw ∧ env.parseLegacyParent raw = .ok p

/-! ## Concrete environments for the closed theorems and witnesses -/

/-- A neutral environment: empty extraction tree, no parser accepts
anything, stores never fail. -/
def baseEnv : Env :=
  { fs := fun _ => .notExist
    readDir := fun _ => .ok []
    parseManifestList := fun _ => .error ()
    parseImage := fun _ => .error ()
    parseIndex := fun _ => .error ()
    parseOCIManifest := fun _ => .error ()
    parseRepositories := fun _ => .error ()
    parseLegacyParent := fun _ => .error ()
    historyFromConfig := fun _ => .error ()
    makeV1Config := fun _ _ _ => .error ()
    decompressDiff := fun _ => .error ()
    parseNamedTagged := fun _ => .refErr
    parseNamed := fun _ => .error ()
    withTag := fun _ _ => .error ()
    withName := fun _ => .error ()
    getRefsParsed := fun _ => .error ()
    createFails := fun _ => false
    addTagFails := fun _ _ => false }

/-- OCI layout whose index declares a manifest digest containing a path
traversal sequence; the file at the escaped location exists and holds a
valid manifest. -/
def envC1 : Env :=
  { baseEnv with
    fs := fun p =>
      if p = ["tmp", "oci-layout"] then .content ""
      else if p = ["tmp", "index.json"] then .content "IDX"
      else if p = ["evil", "man"] then .content "MAN"
      else if p = ["tmp", "blobs", "sha256", "cfg"] then .content "CFG"
      else .notExist
    parseIndex := fun s =>
      if s = "IDX" then
        .ok ⟨[⟨mediaTypeImageManifest, "../../evil:man", [(annotRefNameKey, "v1")]⟩]⟩
      else .error ()
    parseOCIManifest := fun s => if s = "MAN" then .ok ⟨"sha256:cfg", []⟩ else .error ()
    parseImage := fun s => if s = "CFG" then .ok ⟨[], []⟩ else .error ()
    parseNamed := fun s => if s = "myimage" then .ok "myimage" else .error ()
    withTag := fun n t => if n = "myimage" ∧ t = "v1" then .ok "myimage:v1" else .error ()
    parseNamedTagged := fun s => if s = "myimage:v1" then .okRef "myimage:v1" else .refErr }

/-- One legacy image `a` without parent whose layer registers fine but
whose image-store creation fails. -/
def envC2 : Env :=
  { baseEnv with
    fs := fun p =>
      if p = ["tmp", "a", "json"] then .content "cfgA"
      else if p = ["tmp", "a", "layer.tar"] then .content "blobA"
      else .notExist
    parseLegacyParent := fun s => if s = "cfgA" then .ok "" else .error ()
    decompressDiff := fun s => if s = "blobA" then .ok "d1" else .error ()
    historyFromConfig := fun s => if s = "cfgA" then .ok "h1" else .error ()
    makeV1Config := fun s _ _ => if s = "cfgA" then .ok "cfgA-final" else .error ()
    createFails := fun s => s == "cfgA-final" }

def c2chain : ChainID := .step .empty "d1"

/-- The oci-layout marker exists but cannot be opened (a non-absent
failure); a valid empty structured manifest is present. -/
def envC3 : Env :=
  { baseEnv with
    fs := fun p =>
      if p = ["tmp", "oci-layout"] then .openErr
      else if p = ["tmp", "manifest.json"] then .content "M"
      else .notExist
    parseManifestList := fun s => if s = "M" then .ok [] else .error () }

/-- Both marker and manifest files exist but fail to open with a
non-absent error. -/
def envC3w : Env :=
  { baseEnv with
    fs := fun p =>
      if p = ["tmp", "oci-layout"] then .openErr
      else if p = ["tmp", "manifest.json"] then .openErr
      else .notExist }

/-- A structured manifest with one zero-layer item and one tag, imported
against a reference store whose `AddTag` always fails. -/
def envC4 : Env :=
  { baseEnv with
    fs := fun p =>
      if p = ["tmp", "manifest.json"] then .content "M"
      else if p = ["tmp", "cfg"] then .content "CFG"
      else .notExist
    parseManifestList := fun s =>
      if s = "M" then .ok [⟨"cfg", ["sample:latest"], []⟩] else .error ()
    parseImage := fun s => if s = "CFG" then .ok ⟨[], []⟩ else .error ()
    parseNamedTagged := fun s =>
      if s = "sample:latest" then .okRef "sample:latest" else .refErr
    addTagFails := fun _ _ => true }

/-- A one-item structured manifest whose declared DiffID does not match
the content of the supplied blob. -/
def envC5 : Env :=
  { baseEnv with
    fs := fun p =>
      if p = ["tmp", "cfg5"] then .content "CFG5"
      else if p = ["tmp", "l1"] then .content "BLOB5"
      else .notExist
    parseImage := fun s => if s = "CFG5" then .ok ⟨["dX"], []⟩ else .error ()
    decompressDiff := fun s => if s = "BLOB5" then .ok "dY" else .error () }

def m5 : ManifestItem := ⟨"cfg5", [], ["l1"]⟩

/-- Two structured-manifest items whose RootFS sequences share the prefix
`[d1]`. -/
def envC6w : Env :=
  { baseEnv with
    fs := fun p =>
      if p = ["tmp", "c6a"] then .content "CFG6A"
      else if p = ["tmp", "c6b"] then .content "CFG6B"
      else if p = ["tmp", "la"] then .content "BLOBA"
      else if p = ["tmp", "lb"] then .content "BLOBB"
      else .notExist
    parseImage := fun s =>
      if s = "CFG6A" then .ok ⟨["d1"], []⟩
      else if s = "CFG6B" then .ok ⟨["d1", "d2"], []⟩
      else .error ()
    decompressDiff := fun s =>
      if s = "BLOBA" then .ok "d1"
      else if s = "BLOBB" then .ok "d2"
      else .error () }

def m6a : ManifestItem := ⟨"c6a", [], ["la"]⟩
def m6b : ManifestItem := ⟨"c6b", [], ["la", "lb"]⟩

/-- A legacy image whose single layer is already present in the layer
store under its ChainID. -/
def envC6c : Env :=
  { baseEnv with
    fs := fun p =>
      if p = ["tmp", "a", "json"] then .content "cfg6"
      else if p = ["tmp", "a", "layer.tar"] then .content "blob6"
      else .notExist
    parseLegacyParent := fun s => if s = "cfg6" then .ok "" else .error ()
    decompressDiff := fun s => if s = "blob6" then .ok "d1" else .error ()
    historyFromConfig := fun s => if s = "cfg6" then .ok "h6" else .error ()
    makeV1Config := fun s _ _ => if s = "cfg6" then .ok "C6" else .error () }

def st6 : St := { St.empty with layers := [(.step .empty "d1", "d1")] }

/-- A legacy batch with images `x` and `y` both declaring parent `p`, and
an empty repositories file. -/
def envC7 : Env :=
  { baseEnv with
    readDir := fun d => if d = ["tmp"] then .ok [("x", true), ("y", true), ("p", true)] else .ok []
    fs := fun p =>
      if p = ["tmp", "x", "json"] then .content "cfgX"
      else if p = ["tmp", "y", "json"] then .content "cfgY"
      else if p = ["tmp", "p", "json"] then .content "cfgP"
      else if p = ["tmp", "x", "layer.tar"] then .content "blobX"
      else if p = ["tmp", "y", "layer.tar"] then .content "blobY"
      else if p = ["tmp", "p", "layer.tar"] then .content "blobP"
      else if p = ["tmp", "repositories"] then .content "REPOS"
      else .notExist
    parseLegacyParent := fun s =>
      if s = "cfgX" then .ok "p"
      else if s = "cfgY" then .ok "p"
      else if s = "cfgP" then .ok ""
      else .error ()
    decompressDiff := fun s =>
      if s = "blobX" then .ok "dx"
      else if s = "blobY" then .ok "dy"
      else if s = "blobP" then .ok "dp"
      else .error ()
    historyFromConfig := fun s =>
      if s = "cfgX" then .ok "hx"
      else if s = "cfgY" then .ok "hy"
      else if s = "cfgP" then .ok "hp"
      else .error ()
    makeV1Config := fun s _ _ =>
      if s = "cfgX" then .ok "CX"
      else if s = "cfgY" then .ok "CY"
      else if s = "cfgP" then .ok "CP"
      else .error ()
    parseImage := fun s => if s = "CP" then .ok ⟨["dp"], ["hp"]⟩ else .error ()
    parseRepositories := fun s => if s = "REPOS" then .ok [] else .error () }

/-- A legacy layout with a repositories file that names an old ID that was
never loaded. -/
def envC9b : Env :=
  { baseEnv with
    fs := fun p => if p = ["tmp", "repositories"] then .content "R" else .notExist
    parseRepositories := fun s =>
      if s = "R" then .ok [("repo", [("latest", "zzz")])] else .error () }

/-- A one-item structured manifest whose configuration declares one layer
while the item supplies none. -/
def envC10 : Env :=
  { baseEnv with
    fs := fun p => if p = ["tmp", "c10"] then .content "CFG10" else .notExist
    parseImage := fun s => if s = "CFG10" then .ok ⟨["d"], []⟩ else .error () }

def m10 : ManifestItem := ⟨"c10", [], []⟩

def countParentSet (child parent : String) : List Ev → Nat
  | [] => 0
  | .parentSet c1 p1 :: evs =>
    (if c1 = child ∧ p1 = parent then 1 else 0) + countParentSet child parent evs
  | _ :: evs => countParentSet child parent evs

/-! # Theorems -/

/-- C1: the claim states that every file open of the import pipeline,
including the OCI index and manifest blob files, goes through `safePath`
and is rejected with PathEscape when the resolved path escapes the
extraction root.  The code contradicts this: `ociLoad` opens `index.json`
and the per-manifest blob path by joining the untrusted digest directly
(lines 193 and 207-208 of `load.go`), without the guard.  At the concrete
input `envC1`, whose index declares the manifest digest
`../../evil:man`, the blob path resolves outside the root `["tmp"]`, the
file there is read and drives the rest of the import, and the whole load
succeeds with no PathEscape — although `safePath` itself would have
rejected that relative path. -/
theorem C1_oci_open_bypasses_guard :
    (Load envC1 0 ["tmp"] "myimage" [] St.empty).1 = .ok () ∧
    countCreatedFor "CFG" (Load envC1 0 ["tmp"] "myimage" [] St.empty).2.events = 1 ∧
    joinPath ["tmp"] ["blobs", digestAlgorithm "../../evil:man", digestHex "../../evil:man"]
      = ["evil", "man"] ∧
    List.isPrefixOf ["tmp"] ["evil", "man"] = false ∧
    envC1.fs ["evil", "man"] = .content "MAN" ∧
    safePath ["tmp"] "blobs/../../evil/man" = .error .pathEscape :=
  ⟨rfl, rfl, rfl, rfl, rfl, rfl⟩

/-- C2: the claim states that every acquired layer handle is released
exactly once on every exit path, in particular on the error exits of
`legacyLoadImage` between acquisition and release.  The code contradicts
this: the handle acquired at line 370 is released only at line 391, with
no deferred release, so the error exits in between (history migration,
config migration, image creation) leak it.  At the concrete input
`envC2`, where image creation fails, the layer was registered (one
acquisition) and never released. -/
theorem C2_legacy_error_exit_leaks_handle :
    (legacyLoadImage envC2 1 "a" ["tmp"] [] St.empty).1 = .error .ioError ∧
    countReg c2chain (legacyLoadImage envC2 1 "a" ["tmp"] [] St.empty).2.1.events = 1 ∧
    countRel c2chain (legacyLoadImage envC2 1 "a" ["tmp"] [] St.empty).2.1.events = 0 :=
  ⟨rfl, rfl, rfl⟩

/-- C3 counterexample: the claim states that every non-absent read
failure on the format-detection marker files aborts the import.  At the
concrete input `envC3` the `oci-layout` marker exists but fails to open
with a non-absent error, yet the import does not abort: detection falls
through to the structured manifest and the load succeeds. -/
theorem C3_counterexample_marker_failure_swallowed :
    envC3.fs (joinPath ["tmp"] ["oci-layout"]) = .openErr ∧
    (Load envC3 0 ["tmp"] "" [] St.empty).1 = .ok () :=
  ⟨rfl, rfl⟩

/-- C3 (amended): a non-absent open failure on the `oci-layout` marker is
treated as the marker being absent and detection falls through to the
structured-manifest probe; a non-absent open failure on the manifest file
aborts the import, but the surfaced error is the generic invalid-argument
error produced by closing a nil file handle, not the original failure. -/
theorem C3_detection_failure_behavior (env : Env) (fuel : Nat) (tmpDir : Path)
    (name : String) (refs : List (String × String)) (st : St) (p1 p2 : Path)
    (h1 : safePath tmpDir "oci-layout" = .ok p1) (h2 : env.fs p1 = .openErr)
    (h3 : safePath tmpDir manifestFileName = .ok p2) (h4 : env.fs p2 = .openErr) :
    Load env fuel tmpDir name refs st = (.error .errInvalid, st) := by
  unfold Load
  rw [h1]; dsimp only; rw [h2]; dsimp only
  rw [h3]; dsimp only; rw [h4]

/-- Witness for C3: the amended behaviour evaluated at `envC3w`. -/
theorem C3_detection_failure_behavior_witness :
    Load envC3w 0 ["tmp"] "" [] St.empty = (.error .errInvalid, St.empty) :=
  C3_detection_failure_behavior envC3w 0 ["tmp"] "" [] St.empty
    ["tmp", "oci-layout"] ["tmp", "manifest.json"] rfl rfl rfl rfl

/-- C4: the claim states that a failing `AddTag` aborts the import and is
surfaced to the caller.  The code contradicts this: both call sites of
`setLoadedTag` (lines 135 and 311) discard its error.  At the concrete
input `envC4`, where `AddTag` always fails, the import still returns
success, still writes the loaded status line, and leaves the reference
unbound. -/
theorem C4_addtag_failure_swallowed :
    (Load envC4 0 ["tmp"] "" [] St.empty).1 = .ok () ∧
    (Load envC4 0 ["tmp"] "" [] St.empty).2.events
      = [.statusLoaded "sample:latest" "CFG", .created "CFG"] ∧
    assoc (Load envC4 0 ["tmp"] "" [] St.empty).2.tags "sample:latest" = none :=
  ⟨rfl, rfl, rfl⟩

/-- C6 counterexample: the claim states that the lookup-before-register
discipline also governs the legacy path.  At the concrete input `envC6c`
with starting state `st6`, the layer store already holds the legacy
image layer under its ChainID, yet `legacyLoadImage` never consults the
store and registers the blob anyway. -/
theorem C6_counterexample_legacy_register_without_lookup :
    (legacyLoadImage envC6c 1 "a" ["tmp"] [] st6).1 = .ok () ∧
    countReg (.step .empty "d1") (legacyLoadImage envC6c 1 "a" ["tmp"] [] st6).2.1.events = 1 ∧
    countGot (.step .empty "d1") (legacyLoadImage envC6c 1 "a" ["tmp"] [] st6).2.1.events = 0 :=
  ⟨rfl, rfl, rfl⟩

/-- C9: the claim states that a legacy import with no repositories file
completes successfully.  The code contradicts this: when the file is
absent, `legacyLoad` returns the result of calling `Close` on a nil
`*os.File` (line 288), the invalid-argument error.  The second conjunct
confirms the other half of the claim: a repositories file naming an old
ID absent from the load map is the fatal invalid-target error. -/
theorem C9_missing_repositories_errinvalid :
    (Load baseEnv 0 ["tmp"] "" [] St.empty).1 = .error .errInvalid ∧
    (Load envC9b 0 ["tmp"] "" [] St.empty).1 = .error (.invalidTargetID "zzz") :=
  ⟨rfl, rfl⟩

/-! ## Helper lemmas -/

theorem safePath_err {b : Path} {p : String} {e : Err}
    (h : safePath b p = .error e) : e = .pathEscape := by
  unfold safePath followSymlinkInScope at h
  split at h <;> simp_all

theorem isCreate_err {env : Env} {cfg : String} {st : St} {e : Err} {st1 : St}
    (h : isCreate env cfg st = (.error e, st1)) : e = .ioError ∧ st1 = st := by
  unfold isCreate at h
  split at h <;> simp_all

theorem isGet_err {env : Env} {id : String} {st : St} {e : Err} {st1 : St}
    (h : isGet env id st = (.error e, st1)) : e = .ioError ∧ st1 = st := by
  unfold isGet at h
  split at h
  · simp_all
  · split at h <;> simp_all

theorem loadLayer_err {env : Env} {fn : Path} {rootFS : List String} {st : St}
    {e : Err} {st1 : St}
    (h : loadLayer env fn rootFS st = (.error e, st1)) : e = .ioError ∧ st1 = st := by
  unfold loadLayer at h
  split at h
  · simp_all
  · simp_all
  · split at h
    · simp_all
    · unfold registerLayer at h; simp_all

theorem chainIDOf_append (xs : List String) (d : String) :
    chainIDOf (xs ++ [d]) = .step (chainIDOf xs) d := by
  simp [chainIDOf, List.foldl_append]

theorem countReg_got (c c1 : ChainID) (evs : List Ev) :
    countReg c (.gotLayer c1 :: evs) = countReg c evs := rfl

theorem countReg_rel (c c1 : ChainID) (evs : List Ev) :
    countReg c (.released c1 :: evs) = countReg c evs := rfl

theorem countReg_created (c : ChainID) (id : String) (evs : List Ev) :
    countReg c (.created id :: evs) = countReg c evs := rfl

theorem countReg_parentSet (c : ChainID) (a b : String) (evs : List Ev) :
    countReg c (.parentSet a b :: evs) = countReg c evs := rfl

theorem countReg_tagBound (c : ChainID) (a b : String) (evs : List Ev) :
    countReg c (.tagBound a b :: evs) = countReg c evs := rfl

theorem countReg_renameNotice (c : ChainID) (a b : String) (evs : List Ev) :
    countReg c (.renameNotice a b :: evs) = countReg c evs := rfl

theorem countReg_statusLoaded (c : ChainID) (a b : String) (evs : List Ev) :
    countReg c (.statusLoaded a b :: evs) = countReg c evs := rfl

theorem countReg_reg (c c1 : ChainID) (evs : List Ev) :
    countReg c (.registered c1 :: evs) = (if c1 = c then 1 else 0) + countReg c evs := rfl

theorem countCreatedAll_got (c1 : ChainID) (evs : List Ev) :
    countCreatedAll (.gotLayer c1 :: evs) = countCreatedAll evs := rfl

theorem countCreatedAll_reg (c1 : ChainID) (evs : List Ev) :
    countCreatedAll (.registered c1 :: evs) = countCreatedAll evs := rfl

/-- C10: for every imported configuration in the structured/OCI path, the
layer count declared in the RootFS DiffIDs must exactly equal the number
of supplied layer blob paths; any inequality fails the item with the
layers-length-mismatch error before any layer is resolved — the state and
the deferred-release list are returned untouched. -/
theorem C10_layer_count_mismatch_invalidconfig (env : Env) (tmpDir : Path)
    (m : ManifestItem) (st : St) (defers : List Handle) (cp : Path)
    (config : String) (img : Img)
    (h1 : safePath tmpDir m.config = .ok cp) (h2 : env.fs cp = .content config)
    (h3 : env.parseImage config = .ok img)
    (h4 : m.layers.length ≠ img.diffIDs.length) :
    loadItem env tmpDir m st defers =
      (.error (.layersLengthMismatch m.layers.length img.diffIDs.length), st, defers) := by
  unfold loadItem
  rw [h1]; dsimp only; rw [h2]; dsimp only; rw [h3]; dsimp only
  rw [if_pos h4]

/-- Witness for C10: a manifest item supplying no blobs for a
configuration declaring one layer. -/
theorem C10_layer_count_mismatch_invalidconfig_witness :
    m10.layers.length ≠ 1 ∧
    loadItem envC10 ["tmp"] m10 St.empty [] =
      (.error (.layersLengthMismatch 0 1), St.empty, []) :=
  ⟨by decide,
    C10_layer_count_mismatch_invalidconfig envC10 ["tmp"] m10 St.empty []
      ["tmp", "c10"] "CFG10" ⟨["d"], []⟩ rfl rfl rfl (by decide)⟩

theorem lsGet_err {c : ChainID} {st : St} {e : Err} {st1 : St}
    (h : lsGet c st = (.error e, st1)) : e = .notFound ∧ st1 = st := by
  unfold lsGet at h
  split at h <;> simp_all

theorem lsGet_created (c : ChainID) (st : St) :
    countCreatedAll (lsGet c st).2.events = countCreatedAll st.events := by
  unfold lsGet
  split <;> simp [countCreatedAll_got]

theorem loadLayer_created (env : Env) (fn : Path) (rootFS : List String) (st : St) :
    countCreatedAll (loadLayer env fn rootFS st).2.events = countCreatedAll st.events := by
  unfold loadLayer registerLayer
  split
  · rfl
  · rfl
  · split
    · rfl
    · simp [countCreatedAll_reg]

theorem getOrLoad_created (env : Env) (lp : Path) (rootFS : List String)
    (d : String) (st : St) :
    countCreatedAll (getOrLoad env lp rootFS d st).2.events = countCreatedAll st.events := by
  unfold getOrLoad
  split
  case _ h st1 heq =>
    have hc := lsGet_created (chainIDOf (rootFS ++ [d])) st
    rw [heq] at hc
    exact hc
  case _ e st1 heq =>
    have h1 := (lsGet_err heq).2
    subst h1
    exact loadLayer_created env lp rootFS st1

theorem resolveLayers_created (env : Env) (tmpDir : Path) :
    ∀ (pairs : List (String × String)) (rootFS : List String) (i : Nat)
      (st : St) (defers : List Handle),
      countCreatedAll (resolveLayers env tmpDir pairs rootFS i st defers).2.1.events
        = countCreatedAll st.events := by
  intro pairs
  induction pairs with
  | nil => intro rootFS i st defers; rfl
  | cons hd tl ih =>
    intro rootFS i st defers
    obtain ⟨d, lr⟩ := hd
    unfold resolveLayers
    split
    · rfl
    case _ lp heq =>
      split
      case _ e st1 heq1 =>
        have hc := getOrLoad_created env lp rootFS d st
        rw [heq1] at hc
        exact hc
      case _ h st1 heq1 =>
        have hc := getOrLoad_created env lp rootFS d st
        rw [heq1] at hc
        dsimp only
        split
        · exact hc
        · exact (ih (rootFS ++ [d]) (i + 1) st1 (h :: defers)).trans hc

theorem processTags_no_diffid (env : Env) :
    ∀ (tags : List String) (imgID : String) (st : St) (i : Nat),
      (processTags env tags imgID st).1 ≠ .error (.invalidDiffID i) := by
  intro tags
  induction tags with
  | nil => intro imgID st i h; simp [processTags] at h
  | cons t tl ih =>
    intro imgID st i h
    unfold processTags at h
    split at h
    · simp at h
    · simp at h
    case _ ref heq =>
      dsimp only at h
      exact ih imgID _ i h

/-- C5: a resolved layer whose actual DiffID differs from the declared
DiffID at its position makes the layer loop fail with the integrity
error; when a manifest item fails with that error, no image was created
during the item (image-store `Create` was not invoked for it), and the
error aborts the whole `loadHelper` run. -/
theorem C5_diffid_mismatch_aborts_without_create :
    (∀ (env : Env) (tmpDir : Path) (d lr : String) (rest : List (String × String))
       (rootFS : List String) (i : Nat) (st : St) (defers : List Handle)
       (lp : Path) (h : Handle) (st2 : St),
       safePath tmpDir lr = .ok lp →
       getOrLoad env lp rootFS d st = (.ok h, st2) →
       h.diff ≠ d →
       (resolveLayers env tmpDir ((d, lr) :: rest) rootFS i st defers).1
         = .error (.invalidDiffID i)) ∧
    (∀ (env : Env) (tmpDir : Path) (m : ManifestItem) (st : St)
       (defers : List Handle) (i : Nat) (st1 : St) (defers1 : List Handle),
       loadItem env tmpDir m st defers = (.error (.invalidDiffID i), st1, defers1) →
       countCreatedAll st1.events = countCreatedAll st.events) ∧
    (∀ (env : Env) (tmpDir : Path) (m : ManifestItem) (rest : List ManifestItem)
       (st : St) (i : Nat) (st1 : St) (defers1 : List Handle),
       loadItem env tmpDir m st [] = (.error (.invalidDiffID i), st1, defers1) →
       (loadHelper env tmpDir (m :: rest) st).1 = .error (.invalidDiffID i)) := by
  refine ⟨?_, ?_, ?_⟩
  · intro env tmpDir d lr rest rootFS i st defers lp h st2 hsp hgol hne
    unfold resolveLayers
    rw [hsp]; dsimp only; rw [hgol]; dsimp only
    rw [if_pos hne]
  · intro env tmpDir m st defers i st1 defers1 heq
    unfold loadItem at heq
    split at heq
    case _ e hsp =>
      have := safePath_err hsp
      simp_all
    case _ cp hsp =>
      split at heq
      · simp_all
      · simp_all
      case _ config hfs =>
        split at heq
        · simp_all
        case _ img hpi =>
          split at heq
          · simp_all
          · split at heq
            case _ e stx defx hrl =>
              have hc := resolveLayers_created env tmpDir (img.diffIDs.zip m.layers) [] 0 st defers
              rw [hrl] at hc
              dsimp only at hc
              injection heq with h1 h2
              injection h2 with h2 h3
              rw [← h2]
              exact hc
            case _ v stx defx hrl =>
              split at heq
              case _ e sty hic =>
                have := (isCreate_err hic).1
                simp_all
              case _ imgID sty hic =>
                split at heq
                case _ e stz hpt =>
                  injection heq with h1 h2
                  rw [h1] at hpt
                  have := processTags_no_diffid env m.repoTags imgID sty i
                  rw [hpt] at this
                  simp at this
                · simp_all
  · intro env tmpDir m rest st i st1 defers1 heq
    unfold loadHelper loadItems
    rw [heq]

/-- Witness for C5: the mismatching item of `envC5` evaluated through the
three conjuncts. -/
theorem C5_diffid_mismatch_aborts_without_create_witness :
    (resolveLayers envC5 ["tmp"] [("dX", "l1")] [] 0 St.empty []).1
      = .error (.invalidDiffID 0) ∧
    countCreatedAll (loadItem envC5 ["tmp"] m5 St.empty []).2.1.events
      = countCreatedAll St.empty.events ∧
    (loadHelper envC5 ["tmp"] [m5] St.empty).1 = .error (.invalidDiffID 0) := by
  refine ⟨?_, ?_, ?_⟩
  · exact C5_diffid_mismatch_aborts_without_create.1 envC5 ["tmp"] "dX" "l1" [] [] 0
      St.empty [] ["tmp", "l1"] ⟨.step .empty "dY", "dY"⟩
      (getOrLoad envC5 ["tmp", "l1"] [] "dX" St.empty).2 rfl rfl (by decide)
  · exact C5_diffid_mismatch_aborts_without_create.2.1 envC5 ["tmp"] m5 St.empty [] 0
      (loadItem envC5 ["tmp"] m5 St.empty []).2.1
      (loadItem envC5 ["tmp"] m5 St.empty []).2.2 rfl
  · exact C5_diffid_mismatch_aborts_without_create.2.2 envC5 ["tmp"] m5 [] St.empty 0
      (loadItem envC5 ["tmp"] m5 St.empty []).2.1
      (loadItem envC5 ["tmp"] m5 St.empty []).2.2 rfl

theorem RegOnce.mono {st st1 : St} (hl : st1.layers = st.layers)
    (he : ∀ c, countReg c st1.events = countReg c st.events)
    (h : RegOnce st) : RegOnce st1 := by
  intro c
  rw [he c, hl]
  exact h c

theorem lsGet_err_none {c : ChainID} {st : St} {e : Err} {st1 : St}
    (h : lsGet c st = (.error e, st1)) : assoc st.layers c = none := by
  unfold lsGet at h
  split at h <;> simp_all

theorem setLoadedTag_regonce (env : Env) (ref imgID : String) (st : St)
    (h : RegOnce st) : RegOnce (setLoadedTag env ref imgID st).2 := by
  unfold setLoadedTag rsAddTag
  split
  case _ prev heq =>
    split
    · split
      · exact h
      · exact RegOnce.mono rfl (fun c => countReg_tagBound c ref imgID _)
          (RegOnce.mono rfl (fun c => countReg_renameNotice c ref prev _) h)
    · split
      · exact RegOnce.mono rfl (fun c => countReg_renameNotice c ref prev _) h
      · exact RegOnce.mono rfl (fun c => countReg_tagBound c ref imgID _)
          (RegOnce.mono rfl (fun c => countReg_renameNotice c ref prev _) h)
  case _ heq =>
    split
    · exact h
    · exact RegOnce.mono rfl (fun c => countReg_tagBound c ref imgID _) h

theorem processTags_regonce (env : Env) :
    ∀ (tags : List String) (imgID : String) (st : St),
      RegOnce st → RegOnce (processTags env tags imgID st).2 := by
  intro tags
  induction tags with
  | nil => intro imgID st h; exact h
  | cons t tl ih =>
    intro imgID st h
    unfold processTags
    split
    · exact h
    · exact h
    case _ ref heq =>
      dsimp only
      refine ih imgID _ ?_
      exact RegOnce.mono rfl (fun c => countReg_statusLoaded c ref imgID _)
        (setLoadedTag_regonce env ref imgID st h)

theorem isCreate_ok_regonce {env : Env} {cfg : String} {st : St} {imgID : String}
    {st1 : St} (heq : isCreate env cfg st = (.ok imgID, st1))
    (h : RegOnce st) : RegOnce st1 := by
  unfold isCreate at heq
  split at heq
  · simp_all
  · injection heq with h1 h2
    rw [← h2]
    exact RegOnce.mono rfl (fun c => countReg_created c cfg _) h

theorem releaseAll_regonce :
    ∀ (defers : List Handle) (st : St), RegOnce st → RegOnce (releaseAll defers st) := by
  intro defers
  induction defers with
  | nil => intro st h; exact h
  | cons hd tl ih =>
    intro st h
    unfold releaseAll
    exact ih _ (RegOnce.mono rfl (fun c => countReg_rel c hd.chain _) h)

theorem getOrLoad_regonce {env : Env} {lp : Path} {rootFS : List String}
    {d : String} {st : St} {h : Handle} {st1 : St}
    (heq : getOrLoad env lp rootFS d st = (.ok h, st1))
    (hdiff : h.diff = d) (hro : RegOnce st) : RegOnce st1 := by
  unfold getOrLoad at heq
  split at heq
  case _ h0 st0 heq1 =>
    injection heq with e1 e2
    unfold lsGet at heq1
    split at heq1
    · injection heq1 with f1 f2
      rw [← e2, ← f2]
      exact RegOnce.mono rfl (fun c => countReg_got c _ _) hro
    · simp_all
  case _ e st0 heq1 =>
    have hnone := lsGet_err_none heq1
    have hst0 := (lsGet_err heq1).2
    subst hst0
    unfold loadLayer at heq
    split at heq
    · simp_all
    · simp_all
    case _ raw hraw =>
      split at heq
      · simp_all
      case _ diff hdec =>
        unfold registerLayer at heq
        injection heq with e1 e2
        injection e1 with e1
        have hd : diff = d := by
          rw [← e1] at hdiff
          exact hdiff
        subst hd
        rw [← chainIDOf_append rootFS diff] at e2
        have hfalse : (assoc st0.layers (chainIDOf (rootFS ++ [diff]))).isSome = false := by
          rw [hnone]; rfl
        rw [hfalse] at e2
        simp only [Bool.false_eq_true, if_false] at e2
        rw [← e2]
        intro c
        dsimp only
        by_cases hc : chainIDOf (rootFS ++ [diff]) = c
        · subst hc
          have h0 := hro (chainIDOf (rootFS ++ [diff]))
          have hz : countReg (chainIDOf (rootFS ++ [diff])) st0.events = 0 := by
            by_cases h1 : countReg (chainIDOf (rootFS ++ [diff])) st0.events = 1
            · have h2 := h0.2 h1
              rw [hnone] at h2
              simp at h2
            · have := h0.1
              omega
          rw [countReg_reg, hz]
          exact ⟨by simp, fun _ => by simp [assoc]⟩
        · rw [countReg_reg, if_neg hc]
          constructor
          · simpa using (hro c).1
          · intro h1
            simp only [Nat.zero_add] at h1
            simp only [assoc, if_neg hc]
            exact (hro c).2 h1

theorem resolveLayers_regonce (env : Env) (tmpDir : Path) :
    ∀ (pairs : List (String × String)) (rootFS : List String) (i : Nat)
      (st : St) (defers : List Handle) (st1 : St) (defers1 : List Handle),
      resolveLayers env tmpDir pairs rootFS i st defers = (.ok (), st1, defers1) →
      RegOnce st → RegOnce st1 := by
  intro pairs
  induction pairs with
  | nil =>
    intro rootFS i st defers st1 defers1 heq h
    unfold resolveLayers at heq
    injection heq with e1 e2
    injection e2 with e2 e3
    rw [← e2]
    exact h
  | cons hd tl ih =>
    intro rootFS i st defers st1 defers1 heq h
    obtain ⟨d, lr⟩ := hd
    unfold resolveLayers at heq
    split at heq
    · simp_all
    case _ lp hsp =>
      split at heq
      · simp_all
      case _ hh stx heq1 =>
        dsimp only at heq
        split at heq
        · simp_all
        case _ hdiff =>
          have hd : hh.diff = d := by
            by_contra hne
            exact hdiff hne
          exact ih (rootFS ++ [d]) (i + 1) stx (hh :: defers) st1 defers1 heq
            (getOrLoad_regonce heq1 hd h)

theorem loadItem_regonce {env : Env} {tmpDir : Path} {m : ManifestItem}
    {st : St} {defers : List Handle} {st1 : St} {defers1 : List Handle}
    (heq : loadItem env tmpDir m st defers = (.ok (), st1, defers1))
    (h : RegOnce st) : RegOnce st1 := by
  unfold loadItem at heq
  split at heq
  · simp_all
  case _ cp hsp =>
    split at heq
    · simp_all
    · simp_all
    case _ config hfs =>
      split at heq
      · simp_all
      case _ img hpi =>
        split at heq
        · simp_all
        · split at heq
          · simp_all
          case _ v stx defx hrl =>
            split at heq
            · simp_all
            case _ imgID sty hic =>
              split at heq
              · simp_all
              case _ u stz hpt =>
                injection heq with e1 e2
                injection e2 with e2 e3
                rw [← e2]
                have h1 := resolveLayers_regonce env tmpDir (img.diffIDs.zip m.layers)
                  [] 0 st defers stx defx hrl h
                have h2 := isCreate_ok_regonce hic h1
                have h3 := processTags_regonce env m.repoTags imgID sty h2
                rw [hpt] at h3
                exact h3

theorem loadItems_regonce (env : Env) (tmpDir : Path) :
    ∀ (ms : List ManifestItem) (st : St) (defers : List Handle)
      (st1 : St) (defers1 : List Handle),
      loadItems env tmpDir ms st defers = (.ok (), st1, defers1) →
      RegOnce st → RegOnce st1 := by
  intro ms
  induction ms with
  | nil =>
    intro st defers st1 defers1 heq h
    unfold loadItems at heq
    injection heq with e1 e2
    injection e2 with e2 e3
    rw [← e2]
    exact h
  | cons m tl ih =>
    intro st defers st1 defers1 heq h
    unfold loadItems at heq
    split at heq
    · simp_all
    case _ v stx defx hli =>
      exact ih stx defx st1 defers1 heq (loadItem_regonce hli h)

theorem regOnce_empty : RegOnce St.empty := by
  intro c
  refine ⟨?_, ?_⟩ <;> simp [St.empty, countReg]

/-- C6 (amended): ChainIDs are a pure function of the DiffID prefix, so
RootFS sequences sharing a prefix yield identical ChainIDs for every
position of the shared prefix; and in the structured/OCI path
(`loadHelper`) the store is consulted by extended ChainID before any
registration, so a successful run preserves the registered-at-most-once
discipline (`RegOnce`).  The legacy path does not follow this discipline:
it registers without a prior lookup (see the counterexample). -/
theorem C6_chainid_and_lookup_discipline :
    (∀ (A B : List String) (k j : Nat), j ≤ k → A.take k = B.take k →
       chainIDOf (A.take j) = chainIDOf (B.take j)) ∧
    (∀ (env : Env) (tmpDir : Path) (ms : List ManifestItem) (st res : St),
       loadHelper env tmpDir ms st = (.ok (), res) → RegOnce st → RegOnce res) := by
  constructor
  · intro A B k j hjk hpre
    have h1 : A.take j = (A.take k).take j := by
      rw [List.take_take, Nat.min_eq_left hjk]
    have h2 : B.take j = (B.take k).take j := by
      rw [List.take_take, Nat.min_eq_left hjk]
    rw [h1, h2, hpre]
  · intro env tmpDir ms st res heq h
    unfold loadHelper at heq
    split at heq
    case _ r stx defx hli =>
      injection heq with e1 e2
      rw [e1] at hli
      rw [← e2]
      exact releaseAll_regonce defx stx (loadItems_regonce env tmpDir ms st [] stx defx hli h)

/-- Witness for C6: shared prefixes of two concrete sequences, and the
two-item import of `envC6w` whose final state keeps the discipline. -/
theorem C6_chainid_and_lookup_discipline_witness :
    chainIDOf (["d1", "d2"].take 1) = chainIDOf (["d1", "dZ"].take 1) ∧
    RegOnce (loadHelper envC6w ["tmp"] [m6a, m6b] St.empty).2 := by
  constructor
  · exact C6_chainid_and_lookup_discipline.1 ["d1", "d2"] ["d1", "dZ"] 1 1
      (by decide) (by decide)
  · exact C6_chainid_and_lookup_discipline.2 envC6w ["tmp"] [m6a, m6b] St.empty
      (loadHelper envC6w ["tmp"] [m6a, m6b] St.empty).2 rfl regOnce_empty

/-- C7: legacy loading is idempotent under shared ancestry.  First
conjunct: `legacyLoadImage` on an old ID already in the load map returns
immediately with no effect on the stores or the map.  Remaining
conjuncts: in the concrete batch `envC7`, where images `x` and `y` both
declare parent `p`, the parent image is created exactly once, its layer
is registered exactly once, and both children get their parent link set
to the parent image ID. -/
theorem C7_shared_ancestor_loaded_once :
    (∀ (env : Env) (fuel : Nat) (oldID : String) (dir : Path) (m : LoadedMap) (st : St),
       (assoc m oldID).isSome = true →
       legacyLoadImage env fuel oldID dir m st = (.ok (), st, m)) ∧
    ((legacyLoad envC7 4 ["tmp"] St.empty).1 = .ok () ∧
     countCreatedFor "CP" (legacyLoad envC7 4 ["tmp"] St.empty).2.events = 1 ∧
     countReg (.step .empty "dp") (legacyLoad envC7 4 ["tmp"] St.empty).2.events = 1 ∧
     countParentSet "CX" "CP" (legacyLoad envC7 4 ["tmp"] St.empty).2.events = 1 ∧
     countParentSet "CY" "CP" (legacyLoad envC7 4 ["tmp"] St.empty).2.events = 1) := by
  constructor
  · intro env fuel oldID dir m st h
    have hg : legacyGo env dir fuel (.img oldID) m st = (.ok none, st, m) := by
      unfold legacyGo
      rw [if_pos h]
    simp [legacyLoadImage, hg]
  · exact ⟨rfl, rfl, rfl, rfl, rfl⟩

/-- Witness for C7: the memoization no-op applied at a concrete map. -/
theorem C7_shared_ancestor_loaded_once_witness :
    (assoc [("a", "ID")] "a").isSome = true ∧
    legacyLoadImage baseEnv 0 "a" ["tmp"] [("a", "ID")] St.empty
      = (.ok (), St.empty, [("a", "ID")]) :=
  ⟨rfl, C7_shared_ancestor_loaded_once.1 baseEnv 0 "a" ["tmp"] [("a", "ID")] St.empty rfl⟩

theorem legacyFinish_ok_mem {env : Env} {dir : Path} {oldID j : String}
    {pOpt : Option String} {m : LoadedMap} {st : St} {v : Option String}
    {st1 : St} {m1 : LoadedMap}
    (heq : legacyFinish env dir oldID j pOpt m st = (.ok v, st1, m1)) :
    (assoc m1 oldID).isSome = true := by
  unfold legacyFinish at heq
  dsimp only at heq
  split at heq
  · simp_all
  · split at heq
    · simp_all
    · split at heq
      · simp_all
      · split at heq
        · simp_all
        · split at heq
          · simp_all
          · split at heq
            · simp_all
            · injection heq with e1 e2
              injection e2 with e2 e3
              rw [← e3]
              simp [assoc]

theorem legacyFinish_ne_oof (env : Env) (dir : Path) (oldID j : String)
    (pOpt : Option String) (m : LoadedMap) (st : St) :
    (legacyFinish env dir oldID j pOpt m st).1 ≠ .error .outOfFuel := by
  unfold legacyFinish
  dsimp only
  split
  case _ e st1 heq =>
    cases pOpt with
    | none => simp at heq
    | some pid =>
      have := (isGet_err heq).1
      simp_all
  case _ pimg st1 heq =>
    split
    case _ e hsp =>
      have := safePath_err hsp
      simp_all
    case _ lp hsp =>
      split
      case _ e st2 hll =>
        have := (loadLayer_err hll).1
        simp_all
      case _ nl st2 hll =>
        split
        · simp
        · split
          · simp
          · split
            case _ e st3 hic =>
              have := (isCreate_err hic).1
              simp_all
            case _ imgID st3 hic =>
              simp

theorem legacyGo_img_ok_mem {env : Env} {dir : Path} {fuel : Nat} {id : String}
    {m : LoadedMap} {st : St} {v : Option String} {st1 : St} {m1 : LoadedMap}
    (heq : legacyGo env dir fuel (.img id) m st = (.ok v, st1, m1)) :
    (assoc m1 id).isSome = true := by
  by_cases hmem : (assoc m id).isSome = true
  · unfold legacyGo at heq
    rw [if_pos hmem] at heq
    injection heq with e1 e2
    injection e2 with e2 e3
    rw [← e3]
    exact hmem
  · unfold legacyGo at heq
    rw [if_neg hmem] at heq
    split at heq
    · simp at heq
    · split at heq
      · simp_all
      case _ cp hsp =>
        split at heq
        · simp_all
        · simp_all
        case _ ij hfs =>
          split at heq
          · simp_all
          case _ parent hpl =>
            split at heq
            · exact legacyFinish_ok_mem heq
            · split at heq
              · simp_all
              case _ pidOpt stx mx hploop =>
                exact legacyFinish_ok_mem heq

theorem C8_aux (env : Env) (dir : Path) (rank : String → Nat)
    (hacyc : ∀ id p, declaresParent env dir id p → rank p < rank id) :
    ∀ fuel : Nat,
      (∀ (id : String) (m : LoadedMap) (st : St), 2 * rank id < fuel →
        (legacyGo env dir fuel (.img id) m st).1 ≠ .error .outOfFuel) ∧
      (∀ (p : String) (m : LoadedMap) (st : St), 2 * rank p + 1 < fuel →
        (legacyGo env dir fuel (.ploop p) m st).1 ≠ .error .outOfFuel) := by
  intro fuel
  induction fuel with
  | zero =>
    exact ⟨fun id m st h => absurd h (by omega), fun p m st h => absurd h (by omega)⟩
  | succ fuel ih =>
    constructor
    · intro id m st hf
      by_cases hmem : (assoc m id).isSome = true
      · unfold legacyGo
        rw [if_pos hmem]
        simp
      · unfold legacyGo
        rw [if_neg hmem]
        dsimp only
        split
        case _ e hsp =>
          have := safePath_err hsp
          simp_all
        case _ cp hsp =>
          split
          · simp
          · simp
          case _ ij hfs =>
            split
            · simp
            case _ parent hpl =>
              split
              · exact legacyFinish_ne_oof env dir id ij none m st
              case _ hparent =>
                have hdp : declaresParent env dir id parent := ⟨hparent, cp, ij, hsp, hfs, hpl⟩
                have hrk := hacyc id parent hdp
                split
                case _ e stx mx hploop =>
                  have h2 := ih.2 parent m st (by omega)
                  rw [hploop] at h2
                  simpa using h2
                case _ pidOpt stx mx hploop =>
                  exact legacyFinish_ne_oof env dir id ij pidOpt mx stx
    · intro p m st hf
      by_cases hmem : (assoc m p).isSome = true
      · unfold legacyGo
        rw [if_pos hmem]
        simp
      · unfold legacyGo
        rw [if_neg hmem]
        dsimp only
        split
        case _ e stx mx himg =>
          have h1 := ih.1 p m st (by omega)
          rw [himg] at h1
          simpa using h1
        case _ v stx mx himg =>
          have hmem2 := legacyGo_img_ok_mem himg
          unfold legacyGo
          rw [if_pos hmem2]
          simp

/-- C8: under acyclic and finite declared parent chains (expressed by a
rank function that strictly decreases from child to declared parent),
`legacyLoadImage` with sufficient fuel never exhausts it — the parent
recursion together with the retry loop over the load map reaches either
a genuine error return or a success, and on success the old ID has been
recorded in the load map. -/
theorem C8_legacy_load_terminates (env : Env) (dir : Path) (rank : String → Nat)
    (hacyc : ∀ id p, declaresParent env dir id p → rank p < rank id)
    (fuel : Nat) (id : String) (m : LoadedMap) (st : St)
    (hfuel : 2 * rank id < fuel) :
    (legacyLoadImage env fuel id dir m st).1 ≠ .error .outOfFuel ∧
    ((legacyLoadImage env fuel id dir m st).1 = .ok () →
      (assoc (legacyLoadImage env fuel id dir m st).2.2 id).isSome = true) := by
  have h1 := (C8_aux env dir rank hacyc fuel).1 id m st hfuel
  unfold legacyLoadImage
  constructor
  · split
    · simp
    case _ e stx mx heq =>
      rw [heq] at h1
      simpa using h1
  · split
    case _ v stx mx heq =>
      intro _
      exact legacyGo_img_ok_mem heq
    case _ e stx mx heq =>
      intro hcontra
      simp at hcontra

/-- Witness for C8: the trivially acyclic empty tree with rank zero. -/
theorem C8_legacy_load_terminates_witness :
    2 * 0 < 1 ∧ (legacyLoadImage baseEnv 1 "x" ["tmp"] [] St.empty).1 ≠ .error .outOfFuel := by
  refine ⟨by decide, ?_⟩
  have hacyc : ∀ id p, declaresParent baseEnv ["tmp"] id p →
      (fun _ => (0 : Nat)) p < (fun _ => (0 : Nat)) id := by
    intro id p h
    obtain ⟨-, cp, raw, -, hfs, -⟩ := h
    simp [baseEnv] at hfs
  exact (C8_legacy_load_terminates baseEnv ["tmp"] (fun _ => 0) hacyc 1 "x" [] St.empty
    (by decide)).1
